import Mathlib

set_option linter.unusedVariables false

/-!
Shallow embedding of the zimabook browser widgets:
- `TextareaWrapper` (src/static/textarea_wrapper.js)
- the live-document socket script (src/static/notebook.js)
- `DataTable` (src/unnamed/part_000)

Pure state-passing models of the event handlers, with emitted socket
messages and UI actions made explicit as lists of actions.
-/

namespace Zimabook

/-! ## Tracked Textarea (src/static/textarea_wrapper.js) -/

/-- The mutable fields of a `TextareaWrapper` instance that the handlers
touch: the textarea's current value, `_originalContent`, `_edited`. -/
structure TAState where
  value : String
  originalContent : String
  edited : Bool
deriving DecidableEq, Repr

/-- A parsed `{name, params}` event descriptor, the result of
`JSON.parse` on the `modify-event` / `focus-event` attribute. Params is
a JS object, modelled as an association list with unique keys. -/
structure EventDesc where
  name : String
  params : List (String × String)
deriving DecidableEq, Repr

/-- The `modify-event` and `focus-event` attributes of the element
(`none` = attribute absent). -/
structure TAConfig where
  modifyEvent : Option EventDesc
  focusEvent : Option EventDesc

/-- A `socket.emit(name, payload)` call. -/
inductive Emit where
  | emit (name : String) (payload : List (String × String))
deriving DecidableEq, Repr

/-- JS property assignment `obj.k = v` on an object modelled as an
association list: overwrite the existing binding or append a new one. -/
def objSet (ps : List (String × String)) (k v : String) : List (String × String) :=
  match ps with
  | [] => [(k, v)]
  | (k', v') :: rest => if k' = k then (k, v) :: rest else (k', v') :: objSet rest k v

/-- JS property read `obj.k` on the association-list model. -/
def objGet (ps : List (String × String)) (k : String) : Option String :=
  match ps with
  | [] => none
  | (k', v') :: rest => if k' = k then some v' else objGet rest k

/-- Model of `_setEdited(edited)`: stores the flag (the `dataset.edited` mirror is
determined by the flag and not modelled separately). -/
def setEditedTA (s : TAState) (e : Bool) : TAState :=
  { s with edited := e }

/-- Model of `_checkNoLongerEdited()`: clear the edited flag when the textarea
value equals `_originalContent`. -/
def checkNoLongerEdited (s : TAState) : TAState :=
  if s.value = s.originalContent then setEditedTA s false else s

/-- The `input` listener: by the time it runs the browser has already set
the textarea's value to `newValue`; the handler sets edited, re-checks,
and, when `modify-event` is present, emits the parsed name with the
parsed params extended by `content = this.content`. -/
def inputEvent (cfg : TAConfig) (s : TAState) (newValue : String) : TAState × List Emit :=
  let s1 := { s with value := newValue }
  let s2 := setEditedTA s1 true
  let s3 := checkNoLongerEdited s2
  let out := match cfg.modifyEvent with
    | none => []
    | some ev => [Emit.emit ev.name (objSet ev.params "content" s3.value)]
  (s3, out)

/-- The `focus` listener: when `focus-event` is present, emits the parsed
name with the parsed params unchanged. -/
def focusEvent (cfg : TAConfig) (s : TAState) : TAState × List Emit :=
  match cfg.focusEvent with
  | none => (s, [])
  | some ev => (s, [Emit.emit ev.name ev.params])

/-- Model of `attributeChangedCallback(name, oldValue, newValue)`: for `text`,
store the new server value, overwrite the field only when not edited,
then re-check the flag. The `focus` branch only focuses/blurs the inner
textarea and touches none of the modelled fields. -/
def taAttributeChangedCallback (s : TAState) (name oldValue newValue : String) : TAState :=
  if name = "text" then
    let s1 := { s with originalContent := newValue }
    let s2 := if !s1.edited then { s1 with value := newValue } else s1
    checkNoLongerEdited s2
  else
    s

/-- Model of `connectedCallback()`: initialise `_originalContent` and the field
from the `text` attribute (empty string when absent). -/
def taConnectedCallback (s : TAState) (textAttr : Option String) : TAState :=
  let t := textAttr.getD ""
  { s with originalContent := t, value := t }

/-- The constructor's state: empty textarea, empty `_originalContent`,
`_setEdited(false)`. -/
def taInit : TAState :=
  { value := "", originalContent := "", edited := false }

/-- The operations that can hit a connected `TextareaWrapper`. -/
inductive TAOp where
  | input (v : String)
  | setText (oldValue newValue : String)
  | setFocus (oldValue newValue : String)

/-- One operation's effect on the state (emissions dropped). -/
def taStep (cfg : TAConfig) (s : TAState) : TAOp → TAState
  | .input v => (inputEvent cfg s v).1
  | .setText o n => taAttributeChangedCallback s "text" o n
  | .setFocus o n => taAttributeChangedCallback s "focus" o n

/-- Run a sequence of operations. -/
def taRun (cfg : TAConfig) (s : TAState) (ops : List TAOp) : TAState :=
  ops.foldl (taStep cfg) s

/-- The edited-flag invariant: edited iff the field diverges from the
last externally provided text value. -/
def editedInvariant (s : TAState) : Prop :=
  s.edited = true ↔ s.value ≠ s.originalContent

lemma editedInvariant_input (cfg : TAConfig) (s : TAState) (v : String) :
    editedInvariant ((inputEvent cfg s v).1) := by
  simp only [inputEvent, setEditedTA, checkNoLongerEdited, editedInvariant]
  by_cases h : v = s.originalContent <;> simp [h]

lemma editedInvariant_setText (s : TAState) (o n : String) :
    editedInvariant (taAttributeChangedCallback s "text" o n) := by
  simp only [taAttributeChangedCallback, checkNoLongerEdited, setEditedTA,
    editedInvariant, if_pos rfl]
  by_cases he : s.edited <;> by_cases hv : s.value = n <;> simp [he, hv]

lemma setFocus_id (s : TAState) (o n : String) :
    taAttributeChangedCallback s "focus" o n = s := by
  simp [taAttributeChangedCallback]

lemma editedInvariant_taStep (cfg : TAConfig) (s : TAState) (op : TAOp)
    (h : editedInvariant s) : editedInvariant (taStep cfg s op) := by
  cases op with
  | input v => exact editedInvariant_input cfg s v
  | setText o n => exact editedInvariant_setText s o n
  | setFocus o n => simpa [taStep, setFocus_id] using h

lemma editedInvariant_taRun (cfg : TAConfig) (s : TAState) (ops : List TAOp)
    (h : editedInvariant s) : editedInvariant (taRun cfg s ops) := by
  induction ops generalizing s with
  | nil => exact h
  | cons op ops ih =>
    exact ih (taStep cfg s op) (editedInvariant_taStep cfg s op h)

/-- C3: after every Tracked Textarea operation — an input event or a
`text` attribute change — the edited flag is true iff the current value
differs from the last externally provided `text` value; `focus`
attribute changes touch none of these fields, so the invariant holds in
every state reachable from a freshly connected element. -/
theorem edited_flag_iff_diverges (cfg : TAConfig) (s : TAState) (v o n : String)
    (t : Option String) (ops : List TAOp) :
    editedInvariant ((inputEvent cfg s v).1) ∧
    editedInvariant (taAttributeChangedCallback s "text" o n) ∧
    editedInvariant (taRun cfg (taConnectedCallback taInit t) ops) := by
  refine ⟨editedInvariant_input cfg s v, editedInvariant_setText s o n, ?_⟩
  refine editedInvariant_taRun cfg _ ops ?_
  simp [taConnectedCallback, taInit, editedInvariant]

lemma taStep_setText_then_input (cfg : TAConfig) (s : TAState) (w X Y : String)
    (hYX : Y ≠ X) :
    taStep cfg (taStep cfg s (.setText w X)) (.input Y) =
      ⟨Y, X, true⟩ := by
  simp only [taStep, taAttributeChangedCallback, inputEvent, setEditedTA,
    checkNoLongerEdited, if_pos rfl]
  by_cases he : s.edited <;> by_cases hv : s.value = X <;> simp [he, hv, hYX]

/-- C1: from any state, setting `text` to X then an input making the
value Y (Y ≠ X) sets the edited flag; a further `text` update back to X
leaves the value at Y; and after a `text` update to Z, an input making
the value exactly Z clears the edited flag. -/
theorem textarea_edit_lifecycle (cfg : TAConfig) (s : TAState)
    (X Y Z w1 w2 w3 : String) (hYX : Y ≠ X) :
    (taStep cfg (taStep cfg s (.setText w1 X)) (.input Y)).edited = true ∧
    (taStep cfg (taStep cfg (taStep cfg s (.setText w1 X)) (.input Y))
      (.setText w2 X)).value = Y ∧
    (taStep cfg (taStep cfg (taStep cfg (taStep cfg (taStep cfg s
      (.setText w1 X)) (.input Y)) (.setText w2 X)) (.setText w3 Z))
      (.input Z)).edited = false := by
  have h3 : taStep cfg (⟨Y, X, true⟩ : TAState) (.setText w2 X) = ⟨Y, X, true⟩ := by
    simp [taStep, taAttributeChangedCallback, checkNoLongerEdited, setEditedTA, hYX]
  have h4 : (taStep cfg (⟨Y, X, true⟩ : TAState) (.setText w3 Z)).originalContent
      = Z := by
    simp only [taStep, taAttributeChangedCallback, checkNoLongerEdited,
      setEditedTA, if_pos rfl]
    by_cases hYZ : Y = Z <;> simp [hYZ]
  have h5 : ∀ st : TAState, st.originalContent = Z →
      (taStep cfg st (.input Z)).edited = false := by
    intro st h
    simp [taStep, inputEvent, setEditedTA, checkNoLongerEdited, h]
  rw [taStep_setText_then_input cfg s w1 X Y hYX, h3]
  exact ⟨rfl, rfl, h5 _ h4⟩

/-- Witness for `textarea_edit_lifecycle` at concrete inputs. -/
theorem textarea_edit_lifecycle_witness :
    ("b" : String) ≠ "a" ∧
    ((taStep ⟨none, none⟩ (taStep ⟨none, none⟩ taInit (.setText "" "a"))
        (.input "b")).edited = true ∧
      (taStep ⟨none, none⟩ (taStep ⟨none, none⟩ (taStep ⟨none, none⟩ taInit
        (.setText "" "a")) (.input "b")) (.setText "a" "a")).value = "b" ∧
      (taStep ⟨none, none⟩ (taStep ⟨none, none⟩ (taStep ⟨none, none⟩
        (taStep ⟨none, none⟩ (taStep ⟨none, none⟩ taInit (.setText "" "a"))
        (.input "b")) (.setText "a" "a")) (.setText "a" "c"))
        (.input "c")).edited = false) :=
  ⟨by decide, textarea_edit_lifecycle ⟨none, none⟩ taInit "a" "b" "c" "" "a" "a"
    (by decide)⟩

lemma objGet_objSet_same (ps : List (String × String)) (k v : String) :
    objGet (objSet ps k v) k = some v := by
  induction ps with
  | nil => simp [objSet, objGet]
  | cons p rest ih =>
    obtain ⟨k', v'⟩ := p
    by_cases h : k' = k <;> simp [objSet, objGet, h, ih]

lemma objGet_objSet_ne (ps : List (String × String)) (kI v k : String)
    (h : k ≠ kI) : objGet (objSet ps kI v) k = objGet ps k := by
  induction ps with
  | nil => simp [objSet, objGet, Ne.symm h]
  | cons p rest ih =>
    obtain ⟨k', v'⟩ := p
    by_cases hkk : k' = kI
    · subst hkk
      simp [objSet, objGet, Ne.symm h]
    · simp only [objSet, objGet, if_neg hkk]
      by_cases hk : k' = k <;> simp [hk, ih]

lemma checkNoLongerEdited_value (s : TAState) :
    (checkNoLongerEdited s).value = s.value := by
  simp only [checkNoLongerEdited, setEditedTA]
  split <;> rfl

/-- C9: on input, when `modify-event` is set, the widget emits the
parsed name with the parsed params extended by `content` = the current
field value (other keys untouched); when absent, nothing. On focus, when
`focus-event` is set, the widget emits the parsed name with the parsed
params unchanged; when absent, nothing. -/
theorem configured_event_emission (me fe : Option EventDesc) (s : TAState)
    (v n n2 : String) (ps ps2 : List (String × String)) (k : String)
    (hk : k ≠ "content") :
    (inputEvent ⟨none, fe⟩ s v).2 = [] ∧
    (inputEvent ⟨some ⟨n, ps⟩, fe⟩ s v).2 =
      [Emit.emit n (objSet ps "content" v)] ∧
    objGet (objSet ps "content" v) "content" = some v ∧
    objGet (objSet ps "content" v) k = objGet ps k ∧
    (focusEvent ⟨me, none⟩ s).2 = [] ∧
    (focusEvent ⟨me, some ⟨n2, ps2⟩⟩ s).2 = [Emit.emit n2 ps2] := by
  refine ⟨rfl, ?_, objGet_objSet_same ps "content" v,
    objGet_objSet_ne ps "content" v k hk, rfl, rfl⟩
  simp [inputEvent, setEditedTA, checkNoLongerEdited_value]

/-- Witness for `configured_event_emission` at concrete inputs. -/
theorem configured_event_emission_witness :
    (inputEvent ⟨none, none⟩ taInit "hi").2 = [] ∧
    (inputEvent ⟨some ⟨"ev", [("a", "1")]⟩, none⟩ taInit "hi").2 =
      [Emit.emit "ev" (objSet [("a", "1")] "content" "hi")] ∧
    objGet (objSet [("a", "1")] "content" "hi") "content" = some "hi" ∧
    objGet (objSet [("a", "1")] "content" "hi") "a" = objGet [("a", "1")] "a" ∧
    (focusEvent ⟨none, none⟩ taInit).2 = [] ∧
    (focusEvent ⟨none, some ⟨"fv", [("b", "2")]⟩⟩ taInit).2 =
      [Emit.emit "fv" [("b", "2")]] :=
  configured_event_emission none none taInit "hi" "ev" "fv" [("a", "1")]
    [("b", "2")] "a" (by decide)

/-! ## Live Document widget (src/static/notebook.js) -/

/-- One run of the `socket.on('update')` handler, after the morphdom
patch: `scrollTo` is the identity (modelled as a `Nat` id) of the first
element matching `.scroll-to`, or `none`. Scrolls (action recorded)
exactly when present and not identical to `lastScrolledTo`, updating
`lastScrolledTo`. Returns (new `lastScrolledTo`, scroll actions). -/
def updateStep (lastScrolledTo : Option Nat) (scrollTo : Option Nat) :
    Option Nat × List Nat :=
  match scrollTo with
  | some e => if some e ≠ lastScrolledTo then (some e, [e]) else (lastScrolledTo, [])
  | none => (lastScrolledTo, [])

/-- The scroll actions fired over a whole sequence of server updates,
threading `lastScrolledTo` (initially `null`, i.e. `none`). -/
def scrollTrace (lastScrolledTo : Option Nat) : List (Option Nat) → List Nat
  | [] => []
  | t :: ts =>
    ((updateStep lastScrolledTo t).2) ++ scrollTrace (updateStep lastScrolledTo t).1 ts

/-- Model of `saveCode(cellId)`: reads the content of the `code_${cellId}`
element (modelled by the environment `codeOf`) and emits `save_code`. -/
def saveCode (codeOf : String → String) (cellId : String) : List Emit :=
  [Emit.emit "save_code" [("cell_id", cellId), ("content", codeOf cellId)]]

/-- Model of `runCell(cellId)`: first `saveCode(cellId)`, then emit `run_cell`. -/
def runCell (codeOf : String → String) (cellId : String) : List Emit :=
  saveCode codeOf cellId ++ [Emit.emit "run_cell" [("cell_id", cellId)]]

/-- JS `Array.join(sep)` on the modelled string array. -/
def joinStrings (sep : String) : List String → String
  | [] => ""
  | [x] => x
  | x :: y :: xs => x ++ sep ++ joinStrings sep (y :: xs)

/-- Model of `getKeyCombo(event)`: push `Ctrl` when `event.ctrlKey`, `Alt` when
`event.altKey`, then the key, joined with `+`. -/
def getKeyCombo (ctrlKey altKey : Bool) (key : String) : String :=
  joinStrings "+"
    ((if ctrlKey then ["Ctrl"] else []) ++ (if altKey then ["Alt"] else []) ++ [key])

/-- The `keydown` listener's emission: `keydown {key: combo}`. -/
def keydownEmit (ctrlKey altKey : Bool) (key : String) : Emit :=
  Emit.emit "keydown" [("key", getKeyCombo ctrlKey altKey key)]

/-- C10: every `runCell(cellId)` emits `save_code` carrying that cell id
and its current code content strictly before the `run_cell` message
carrying the same cell id. -/
theorem run_implies_save_first (codeOf : String → String) (cellId : String) :
    ∃ pre post,
      runCell codeOf cellId =
        pre ++ Emit.emit "run_cell" [("cell_id", cellId)] :: post ∧
      Emit.emit "save_code" [("cell_id", cellId), ("content", codeOf cellId)]
        ∈ pre := by
  refine ⟨saveCode codeOf cellId, [], ?_, ?_⟩ <;> simp [runCell, saveCode]

lemma getKeyCombo_eq (c a : Bool) (k : String) :
    getKeyCombo c a k =
      (if c then "Ctrl+" else "") ++ (if a then "Alt+" else "") ++ k := by
  cases c <;> cases a <;>
    (apply String.ext; simp [getKeyCombo, joinStrings, String.data_append])

/-- C5: the keydown emission carries the combo built by prefixing `Ctrl`
when Ctrl is held, then `Alt` when Alt is held, before the key name,
joined with `+`; in particular Ctrl+Alt with key "s" gives
"Ctrl+Alt+s". -/
theorem keydown_combo (c a : Bool) (k : String) :
    keydownEmit c a k = Emit.emit "keydown"
      [("key", (if c then "Ctrl+" else "") ++ (if a then "Alt+" else "") ++ k)] ∧
    getKeyCombo true true "s" = "Ctrl+Alt+s" := by
  refine ⟨?_, by decide⟩
  rw [keydownEmit, getKeyCombo_eq]

/-- The claim "scroll at most once per distinct element over a whole
update sequence" fails: updates alternating 1, 2, 1 scroll element 1
twice (the gate only compares with the most recently scrolled
element). -/
theorem scroll_once_per_element_cex :
    (scrollTrace none [some 1, some 2, some 1]).count 1 = 2 ∧
    ¬ (scrollTrace none [some 1, some 2, some 1]).count 1 ≤ 1 := by decide

lemma scrollTrace_chain_aux (ts : List (Option Nat)) : ∀ l : Option Nat,
    List.Chain' (fun a b => a ≠ b) (scrollTrace l ts) ∧
    (∀ x xs, scrollTrace l ts = x :: xs → some x ≠ l) := by
  induction ts with
  | nil =>
    intro l
    refine ⟨List.chain'_nil, ?_⟩
    intro x xs h
    simp [scrollTrace] at h
  | cons t ts ih =>
    intro l
    cases t with
    | none =>
      have he : scrollTrace l (none :: ts) = scrollTrace l ts := by
        simp [scrollTrace, updateStep]
      rw [he]; exact ih l
    | some e =>
      by_cases h : some e = l
      · have he : scrollTrace l (some e :: ts) = scrollTrace l ts := by
          simp [scrollTrace, updateStep, h]
        rw [he]; exact ih l
      · have he : scrollTrace l (some e :: ts) = e :: scrollTrace (some e) ts := by
          simp [scrollTrace, updateStep, h]
        rw [he]
        obtain ⟨hchain, hhead⟩ := ih (some e)
        refine ⟨?_, ?_⟩
        · rw [List.chain'_cons']
          refine ⟨?_, hchain⟩
          intro y hy
          cases hrest : scrollTrace (some e) ts with
          | nil => rw [hrest] at hy; simp at hy
          | cons x xs =>
            rw [hrest] at hy
            simp at hy
            subst hy
            intro hex
            exact hhead x xs hrest (by rw [hex])
        · intro x xs hx
          rw [List.cons_eq_cons] at hx
          rw [← hx.1]
          exact h

lemma scrollTrace_same_nil (e : Nat) (n : Nat) :
    scrollTrace (some e) (List.replicate n (some e)) = [] := by
  induction n with
  | zero => rfl
  | succ n ih => simp [List.replicate_succ, scrollTrace, updateStep, ih]

lemma scrollTrace_replicate_count (l : Option Nat) (e : Nat) (n : Nat) :
    (scrollTrace l (List.replicate n (some e))).count e ≤ 1 := by
  cases n with
  | zero => simp [scrollTrace]
  | succ n =>
    by_cases h : l = some e
    · subst h
      rw [scrollTrace_same_nil]
      simp
    · rw [List.replicate_succ]
      have h1 : updateStep l (some e) = (some e, [e]) := by
        simp [updateStep, Ne.symm h]
      simp [scrollTrace, h1, scrollTrace_same_nil]

/-- C4 (amended): an update whose scroll-focus element is identical to
the most recently scrolled element (or is absent) triggers nothing; any
run of updates all carrying the same scroll-focus element scrolls it at
most once; consecutive scroll actions always target distinct elements.
(Over a full sequence a previously scrolled element can be re-scrolled
after a different element was scrolled in between.) -/
theorem scroll_gated_by_last (l : Option Nat) (ts : List (Option Nat))
    (e : Nat) (n : Nat) :
    List.Chain' (fun a b => a ≠ b) (scrollTrace l ts) ∧
    (scrollTrace l (List.replicate n (some e))).count e ≤ 1 ∧
    updateStep l none = (l, []) ∧
    updateStep (some e) (some e) = (some e, []) := by
  refine ⟨(scrollTrace_chain_aux ts l).1,
    scrollTrace_replicate_count l e n, rfl, ?_⟩
  simp [updateStep]

/-! ## Remote Table widget (src/unnamed/part_000, `DataTable`) -/

/-- One DataTables column descriptor `{data: column, title: column}`. -/
structure DTColumn where
  data : String
  title : String
deriving DecidableEq, Repr

/-- The externally visible effects of the `DataTable` element's
handlers, in program order. -/
inductive TableAction where
  | clearShadow
  | setTemplate
  | fetchColumns (url : String)
  | initDataTable (ajaxUrl : String) (columns : List DTColumn)
  | alertMsg (msg : String)
deriving DecidableEq, Repr

/-- The shadow root's rendered content, abstracted. -/
inductive ShadowState where
  | empty
  | template
  | dataTable (ajaxUrl : String) (columns : List DTColumn)
deriving DecidableEq, Repr

/-- Model of `serverUrl.indexOf(c) != -1`: the URL already holds the character. -/
def hasChar (u : String) (c : Char) : Bool :=
  u.toList.contains c

/-- The column request URL: the server URL, then "?" when the URL has
no query string yet and "&" when it does, then "get-columns=true". -/
def columnsUrl (serverUrl : String) : String :=
  serverUrl ++ (if hasChar serverUrl '?' then "&" else "?") ++ "get-columns=true"

/-- Model of `initializeTable()`: writes the table skeleton into the shadow root
and issues the column-fetch POST (the async success/error callbacks are
modelled separately). -/
def initializeTable (serverUrl : String) : ShadowState × List TableAction :=
  (ShadowState.template,
    [TableAction.setTemplate, TableAction.fetchColumns (columnsUrl serverUrl)])

/-- Model of `attributeChangedCallback(name, oldValue, newValue)`: only on a
`server-url` change with a genuinely different value, clear the shadow
root then re-run `initializeTable` against the new URL. -/
def dtAttributeChangedCallback (shadow : ShadowState)
    (name oldValue newValue : String) : ShadowState × List TableAction :=
  if name = "server-url" ∧ oldValue ≠ newValue then
    ((initializeTable newValue).1,
      TableAction.clearShadow :: (initializeTable newValue).2)
  else
    (shadow, [])

/-- The `$.ajax` success callback: map each fetched column name to a
descriptor using the name as both data key and title, then initialize
the DataTable against the server URL. -/
def ajaxSuccess (serverUrl : String) (columns : List String) :
    ShadowState × List TableAction :=
  let dtColumns := columns.map fun column => DTColumn.mk column column
  (ShadowState.dataTable serverUrl dtColumns,
    [TableAction.initDataTable serverUrl dtColumns])

/-- The `$.ajax` error callback:
`alert('Failed to fetch columns: ' + error)`. -/
def ajaxError (error : String) : List TableAction :=
  [TableAction.alertMsg ("Failed to fetch columns: " ++ error)]

/-- How many alerts a list of table actions raises. -/
def alertCount (acts : List TableAction) : Nat :=
  (acts.filter fun a => match a with | .alertMsg _ => true | _ => false).length

/-- How many column fetches (retries) a list of table actions issues. -/
def fetchCount (acts : List TableAction) : Nat :=
  (acts.filter fun a => match a with | .fetchColumns _ => true | _ => false).length

/-- How many table renderings a list of table actions performs. -/
def renderCount (acts : List TableAction) : Nat :=
  (acts.filter fun a => match a with | .initDataTable _ _ => true | _ => false).length

/-- Whether `needle` occurs as a contiguous substring of `hay`. -/
def strContains (hay needle : String) : Bool :=
  decide (needle.data <:+: hay.data)

/-- C2: a `server-url` notification carrying an unchanged value leaves
the shadow untouched and performs no action; one carrying a different
value clears the shadow first, then writes the skeleton and issues the
column fetch against the new URL. -/
theorem server_url_rerender_gating (shadow : ShadowState)
    (name o n o2 n2 : String) (h1 : o = n) (h2 : o2 ≠ n2) :
    dtAttributeChangedCallback shadow name o n = (shadow, []) ∧
    dtAttributeChangedCallback shadow "server-url" o2 n2 =
      (ShadowState.template,
        [TableAction.clearShadow, TableAction.setTemplate,
         TableAction.fetchColumns (columnsUrl n2)]) := by
  constructor
  · simp [dtAttributeChangedCallback, h1]
  · simp [dtAttributeChangedCallback, h2, initializeTable]

/-- Witness for `server_url_rerender_gating` at concrete inputs. -/
theorem server_url_rerender_gating_witness :
    dtAttributeChangedCallback ShadowState.empty "server-url" "u" "u" =
      (ShadowState.empty, []) ∧
    dtAttributeChangedCallback ShadowState.empty "server-url" "a" "b" =
      (ShadowState.template,
        [TableAction.clearShadow, TableAction.setTemplate,
         TableAction.fetchColumns (columnsUrl "b")]) :=
  server_url_rerender_gating ShadowState.empty "server-url" "u" "u" "a" "b"
    rfl (by decide)

/-- C6: a failed column fetch raises exactly one alert, whose message
holds the underlying error text, and issues no retry fetch and no
fallback rendering; the other table operations raise no alert (the
textarea and live-document handlers only ever emit socket messages, so
no alert exists there at all). -/
theorem column_fetch_failure_alert (error : String) (shadow : ShadowState)
    (name o n u u2 : String) (cols : List String) :
    ajaxError error =
      [TableAction.alertMsg ("Failed to fetch columns: " ++ error)] ∧
    alertCount (ajaxError error) = 1 ∧
    strContains ("Failed to fetch columns: " ++ error) error = true ∧
    fetchCount (ajaxError error) = 0 ∧
    renderCount (ajaxError error) = 0 ∧
    alertCount (dtAttributeChangedCallback shadow name o n).2 = 0 ∧
    alertCount (initializeTable u).2 = 0 ∧
    alertCount (ajaxSuccess u2 cols).2 = 0 := by
  refine ⟨rfl, rfl, ?_, rfl, rfl, ?_, rfl, rfl⟩
  · have hsub : error.data <:+: ("Failed to fetch columns: " ++ error).data := by
      rw [String.data_append]
      exact (List.suffix_append _ _).isInfix
    simpa [strContains] using hsub
  · unfold dtAttributeChangedCallback
    split <;> simp [alertCount, initializeTable]

/-- C7: a successful column fetch configures one DataTables column per
fetched name, in order, each using the name both as data key and as
display title; `["a","b"]` yields exactly the two columns "a" and "b". -/
theorem columns_config_from_fetch (u : String) (cols : List String)
    (i : Fin cols.length) :
    (ajaxSuccess u cols).2 =
      [TableAction.initDataTable u (cols.map fun c => DTColumn.mk c c)] ∧
    (cols.map fun c => DTColumn.mk c c).length = cols.length ∧
    (cols.map fun c => DTColumn.mk c c)[i.val]? =
      some (DTColumn.mk (cols.get i) (cols.get i)) ∧
    ajaxSuccess u ["a", "b"] =
      (ShadowState.dataTable u [DTColumn.mk "a" "a", DTColumn.mk "b" "b"],
       [TableAction.initDataTable u [DTColumn.mk "a" "a", DTColumn.mk "b" "b"]]) := by
  refine ⟨rfl, by simp, ?_, rfl⟩
  simp [List.getElem?_map, List.getElem?_eq_getElem i.isLt]

/-- C8: the column request URL appends `?get-columns=true` when the
server URL holds no query string yet, and `&get-columns=true` when it
already does. -/
theorem get_columns_url (u w : String) (hu : hasChar u '?' = false)
    (hw : hasChar w '?' = true) :
    columnsUrl u = u ++ "?get-columns=true" ∧
    columnsUrl w = w ++ "&get-columns=true" := by
  constructor <;>
    (apply String.ext; simp [columnsUrl, hu, hw, String.data_append])

/-- Witness for `get_columns_url` at concrete URLs. -/
theorem get_columns_url_witness :
    columnsUrl "/data" = "/data" ++ "?get-columns=true" ∧
    columnsUrl "/data?x=1" = "/data?x=1" ++ "&get-columns=true" :=
  get_columns_url "/data" "/data?x=1" (by decide) (by decide)

end Zimabook
